import Mathlib

/-!
Verification development for a two-process real-time tic-tac-toe service.

The definitions below are a shallow embedding of the JavaScript sources:
  - `src/src/gameLogic.js` (class TicTacToeGame and class RedisSyncManager),
  - `src/src/enhancedRedisSync.js` (class EnhancedRedisSyncManager),
  - the WebSocket server file (class TicTacToeServer and class
    EnhancedTicTacToeServer).

JS strings for marks become the inductive `Player`, board cells become
`Cell`, the status strings become `Status`.  The JS `Set` of player ids
(insertion ordered) becomes a `List String`.  Error message strings are
embedded as inductive reject reasons carrying the same information.
-/

namespace TicTacToe

/-- Mark of a participant; the source uses the strings X and O.  The spec
calls these Mark(A) and Mark(B): A corresponds to X, B to O. -/
inductive Player where
  | X
  | O
deriving DecidableEq

/-- One board cell; the source uses the empty string for an empty cell and
the mark string otherwise. -/
inductive Cell where
  | empty
  | mark (p : Player)
deriving DecidableEq

/-- Game status; the source uses the strings waiting, playing, finished. -/
inductive Status where
  | waiting
  | playing
  | finished
deriving DecidableEq

/-- A board position: row and column, each in 0..2. -/
abbrev Pos := Fin 3 × Fin 3

/-- The 3x3 board of class TicTacToeGame, as a total function on positions. -/
abbrev Board := Pos → Cell

instance : DecidableEq Board := fun _ _ => inferInstance

/-- createEmptyBoard: a 3x3 grid of empty cells. -/
def createEmptyBoard : Board := fun _ => Cell.empty

/-- The mutable fields of class TicTacToeGame. -/
structure Game where
  board : Board
  currentPlayer : Player
  gameStatus : Status
  winner : Option Player
  players : List String
  moveCount : Nat
deriving DecidableEq

/-- The TicTacToeGame constructor state. -/
def initialGame : Game :=
  { board := createEmptyBoard
    currentPlayer := Player.X
    gameStatus := Status.waiting
    winner := none
    players := []
    moveCount := 0 }

/-- Reject reasons of addPlayer; the source reports them as message strings. -/
inductive JoinReject where
  | gameFull
  | alreadyJoined
deriving DecidableEq

/-- Result object of addPlayer. -/
structure JoinResult where
  success : Bool
  playerSymbol : Option Player
  reject : Option JoinReject
  globalPlayerCount : Option Nat
deriving DecidableEq

/-- addPlayer of class TicTacToeGame: symbol from the larger of the local
size and the supplied global count; first (total 0) gets X, otherwise O;
status becomes playing when the local set reaches 2. -/
def addPlayer (g : Game) (playerId : String) (globalPlayerCount : Nat) :
    JoinResult × Game :=
  let totalPlayers := max g.players.length globalPlayerCount
  if 2 ≤ totalPlayers then
    ({ success := false, playerSymbol := none, reject := some JoinReject.gameFull,
       globalPlayerCount := none }, g)
  else if playerId ∈ g.players then
    ({ success := false, playerSymbol := none, reject := some JoinReject.alreadyJoined,
       globalPlayerCount := none }, g)
  else
    let playerSymbol := if totalPlayers = 0 then Player.X else Player.O
    let players2 := g.players ++ [playerId]
    let gameStatus2 := if players2.length = 2 then Status.playing else g.gameStatus
    ({ success := true, playerSymbol := some playerSymbol, reject := none,
       globalPlayerCount := some (totalPlayers + 1) },
     { g with players := players2, gameStatus := gameStatus2 })

/-- removePlayer of class TicTacToeGame: delete the id; if the set drops
below 2 while playing, revert to waiting. -/
def removePlayer (g : Game) (playerId : String) : Game :=
  let players2 := g.players.erase playerId
  { g with
    players := players2
    gameStatus :=
      if players2.length < 2 ∧ g.gameStatus = Status.playing then Status.waiting
      else g.gameStatus }

/-- getPlayerSymbol of class TicTacToeGame: indexOf in the insertion-ordered
player array; index 0 gives X, every other index (including -1 for an id
that never joined) gives O. -/
def getPlayerSymbol (g : Game) (playerId : String) : Player :=
  match g.players with
  | [] => Player.O
  | p :: _ => if p = playerId then Player.X else Player.O

/-- Convert JS integer row and column to a board position when in 0..2. -/
def toPos (row col : Int) : Option Pos :=
  if h : 0 ≤ row ∧ row < 3 ∧ 0 ≤ col ∧ col < 3 then
    some (⟨row.toNat, by omega⟩, ⟨col.toNat, by omega⟩)
  else
    none

/-- Read board cell at JS indices; out-of-range reads never happen on the
source paths that are guarded by the bounds check. -/
def cellAt (b : Board) (row col : Int) : Cell :=
  match toPos row col with
  | some p => b p
  | none => Cell.empty

/-- Write board cell at JS indices (the source writes only after the bounds
check has passed). -/
def setCell (b : Board) (row col : Int) (v : Cell) : Board :=
  match toPos row col with
  | some p => Function.update b p v
  | none => b

/-- Reject reasons of validateMove, one per message string of the source, in
source order.  wrongTurn carries the current player, as the source message
interpolates this.currentPlayer. -/
inductive MoveReject where
  | notPlaying
  | wrongTurn (current : Player)
  | outOfBounds
  | occupied
deriving DecidableEq

/-- validateMove of class TicTacToeGame, with the checks in source order:
status playing, turn, bounds, cell empty. -/
def validateMove (g : Game) (row col : Int) (playerId : String) :
    Option MoveReject :=
  if g.gameStatus ≠ Status.playing then
    some MoveReject.notPlaying
  else if getPlayerSymbol g playerId ≠ g.currentPlayer then
    some (MoveReject.wrongTurn g.currentPlayer)
  else if row < 0 ∨ 2 < row ∨ col < 0 ∨ 2 < col then
    some MoveReject.outOfBounds
  else if cellAt g.board row col ≠ Cell.empty then
    some MoveReject.occupied
  else
    none

/-- The 8 winning lines in source order: 3 rows, 3 columns, 2 diagonals. -/
def line : Fin 8 → Pos × Pos × Pos
  | 0 => ((0, 0), (0, 1), (0, 2))
  | 1 => ((1, 0), (1, 1), (1, 2))
  | 2 => ((2, 0), (2, 1), (2, 2))
  | 3 => ((0, 0), (1, 0), (2, 0))
  | 4 => ((0, 1), (1, 1), (2, 1))
  | 5 => ((0, 2), (1, 2), (2, 2))
  | 6 => ((0, 0), (1, 1), (2, 2))
  | 7 => ((0, 2), (1, 1), (2, 0))

/-- One line wins when its first cell is non-empty and the other two cells
equal it (the source condition valueA and valueA === valueB === valueC). -/
def lineWinner (b : Board) (l : Pos × Pos × Pos) : Option Player :=
  match b l.1 with
  | Cell.empty => none
  | Cell.mark p =>
    if b l.2.1 = Cell.mark p ∧ b l.2.2 = Cell.mark p then some p else none

/-- checkWinCondition of class TicTacToeGame: the for-loop over the fixed
lines array, unrolled; the first line that wins determines the result. -/
def checkWinCondition (b : Board) : Option (Player × Fin 8) :=
  match lineWinner b (line 0) with
  | some p => some (p, 0)
  | none =>
  match lineWinner b (line 1) with
  | some p => some (p, 1)
  | none =>
  match lineWinner b (line 2) with
  | some p => some (p, 2)
  | none =>
  match lineWinner b (line 3) with
  | some p => some (p, 3)
  | none =>
  match lineWinner b (line 4) with
  | some p => some (p, 4)
  | none =>
  match lineWinner b (line 5) with
  | some p => some (p, 5)
  | none =>
  match lineWinner b (line 6) with
  | some p => some (p, 6)
  | none =>
  match lineWinner b (line 7) with
  | some p => some (p, 7)
  | none => none

/-- The winner value a move result reports: a mark, or the string draw. -/
inductive WinnerVal where
  | player (p : Player)
  | draw
deriving DecidableEq

/-- Result object of makeMove. -/
structure MoveResult where
  success : Bool
  reject : Option MoveReject
  gameOver : Bool
  winner : Option WinnerVal
  winningLine : Option (Fin 8)
deriving DecidableEq

/-- makeMove of class TicTacToeGame: validate, place the mark, increment
moveCount, check win, then draw at moveCount 9, otherwise flip the turn.
On a win the stored winner field is set; on a draw it is left unchanged
(the source only returns winner draw in the result object). -/
def makeMove (g : Game) (row col : Int) (playerId : String) :
    MoveResult × Game :=
  match validateMove g row col playerId with
  | some r =>
    ({ success := false, reject := some r, gameOver := false, winner := none,
       winningLine := none }, g)
  | none =>
    let playerSymbol := getPlayerSymbol g playerId
    let board2 := setCell g.board row col (Cell.mark playerSymbol)
    let moveCount2 := g.moveCount + 1
    match checkWinCondition board2 with
    | some (w, l) =>
      ({ success := true, reject := none, gameOver := true,
         winner := some (WinnerVal.player w), winningLine := some l },
       { g with
         board := board2
         moveCount := moveCount2
         gameStatus := Status.finished
         winner := some w })
    | none =>
      if moveCount2 = 9 then
        ({ success := true, reject := none, gameOver := true,
           winner := some WinnerVal.draw, winningLine := none },
         { g with
           board := board2
           moveCount := moveCount2
           gameStatus := Status.finished })
      else
        ({ success := true, reject := none, gameOver := false, winner := none,
           winningLine := none },
         { g with
           board := board2
           moveCount := moveCount2
           currentPlayer :=
             if g.currentPlayer = Player.X then Player.O else Player.X })

/-- resetGame of class TicTacToeGame. -/
def resetGame (g : Game) : Game :=
  { board := createEmptyBoard
    currentPlayer := Player.X
    gameStatus := if g.players.length = 2 then Status.playing else Status.waiting
    winner := none
    players := g.players
    moveCount := 0 }

/-- The object returned by getGameState of class TicTacToeGame: a copy of
the game fields.  It carries no timestamp property; reading timestamp on it
yields the JS value undefined, embedded as the none of an Option field. -/
structure Snapshot where
  board : Board
  currentPlayer : Player
  gameStatus : Status
  winner : Option Player
  players : List String
  moveCount : Nat
  timestamp : Option Nat
deriving DecidableEq

/-- getGameState of class TicTacToeGame. -/
def getGameState (g : Game) : Snapshot :=
  { board := g.board
    currentPlayer := g.currentPlayer
    gameStatus := g.gameStatus
    winner := g.winner
    players := g.players
    moveCount := g.moveCount
    timestamp := none }

/-- updateState of class TicTacToeGame: overwrite board, currentPlayer,
gameStatus, winner, moveCount, and the player set (the snapshot always
carries a player array in this embedding). -/
def updateState (g : Game) (s : Snapshot) : Game :=
  { g with
    board := s.board
    currentPlayer := s.currentPlayer
    gameStatus := s.gameStatus
    winner := s.winner
    moveCount := s.moveCount
    players := s.players }

/-- A stateUpdate replication message as both sync managers receive it. -/
structure StateUpdateMsg where
  serverId : String
  gameState : Option Snapshot
  timestamp : Nat
deriving DecidableEq

/-- handleStateUpdate of class RedisSyncManager: apply the snapshot
unconditionally whenever the message carries one. -/
def handleStateUpdate (g : Game) (d : StateUpdateMsg) : Game :=
  match d.gameState with
  | some s => updateState g s
  | none => g

/-- isValidGameState of class EnhancedRedisSyncManager checks that the board
is an array of length 3 and that currentPlayer and gameStatus are strings;
all of that holds by construction in this typed embedding. -/
def isValidGameState (_s : Snapshot) : Bool := true

/-- handleStateUpdateEnhanced of class EnhancedRedisSyncManager: after the
shape check, compare the message timestamp against the timestamp property
of the local getGameState value, defaulting to 0 (the source expression
timestamp or-else 0); apply the snapshot when the incoming timestamp is
strictly larger.  getGameState emits no timestamp, so the local side of the
comparison is always 0. -/
def handleStateUpdateEnhanced (g : Game) (d : StateUpdateMsg) : Game :=
  match d.gameState with
  | some s =>
    if isValidGameState s then
      if (getGameState g).timestamp.getD 0 < d.timestamp then updateState g s
      else g
    else g
  | none => g

/-- validateSyncMessage of class EnhancedRedisSyncManager: type checks hold
by construction here; the remaining content is that the timestamp is
positive. -/
def validateSyncMessage (d : StateUpdateMsg) : Bool := 0 < d.timestamp

/-! Circuit breaker and publish path of class EnhancedRedisSyncManager. -/

/-- Breaker states; the source uses the strings CLOSED, OPEN, HALF_OPEN. -/
inductive BreakerState where
  | closed
  | opened
  | halfOpen
deriving DecidableEq

/-- The circuitBreaker object of the enhanced sync manager constructor. -/
structure CircuitBreaker where
  state : BreakerState
  failures : Nat
  threshold : Nat
  timeout : Nat
  lastFailure : Nat
deriving DecidableEq

/-- The fields of class EnhancedRedisSyncManager that the breaker, publish
and connection paths read or write.  Queued messages are abstracted to
numeric ids: their content plays no role in those paths. -/
structure SyncManager where
  isConnected : Bool
  reconnectAttempts : Nat
  maxReconnectAttempts : Nat
  lastConnectionAttempt : Nat
  messageQueue : List Nat
  metricsErrors : Nat
  circuitBreaker : CircuitBreaker
deriving DecidableEq

/-- The constructor state of class EnhancedRedisSyncManager. -/
def initialManager : SyncManager :=
  { isConnected := false
    reconnectAttempts := 0
    maxReconnectAttempts := 10
    lastConnectionAttempt := 0
    messageQueue := []
    metricsErrors := 0
    circuitBreaker :=
      { state := BreakerState.closed
        failures := 0
        threshold := 5
        timeout := 30000
        lastFailure := 0 } }

/-- scheduleReconnection: bump the attempt counter while below the maximum
(the timer it arms is outside this embedding). -/
def scheduleReconnection (m : SyncManager) : SyncManager :=
  if m.maxReconnectAttempts ≤ m.reconnectAttempts then m
  else { m with reconnectAttempts := m.reconnectAttempts + 1 }

/-- handleRedisError of class EnhancedRedisSyncManager: count the error,
increment the breaker failure count, stamp the failure time, open the
breaker at the threshold, drop the connection flag, schedule reconnection. -/
def handleRedisError (m : SyncManager) (now : Nat) : SyncManager :=
  let cb1 :=
    { m.circuitBreaker with
      failures := m.circuitBreaker.failures + 1
      lastFailure := now }
  let cb2 :=
    if cb1.threshold ≤ cb1.failures then { cb1 with state := BreakerState.opened }
    else cb1
  scheduleReconnection
    { m with
      metricsErrors := m.metricsErrors + 1
      circuitBreaker := cb2
      isConnected := false }

/-- handlePublishError of class EnhancedRedisSyncManager: count the error
and nothing else; the circuit breaker is not touched. -/
def handlePublishError (m : SyncManager) : SyncManager :=
  { m with metricsErrors := m.metricsErrors + 1 }

/-- handleConnectionFailure of class EnhancedRedisSyncManager. -/
def handleConnectionFailure (m : SyncManager) (now : Nat) : SyncManager :=
  let cb1 :=
    { m.circuitBreaker with
      failures := m.circuitBreaker.failures + 1
      lastFailure := now }
  let cb2 :=
    if cb1.threshold ≤ cb1.failures then { cb1 with state := BreakerState.opened }
    else cb1
  { m with circuitBreaker := cb2 }

/-- publishMessage of class EnhancedRedisSyncManager: refuse when not
connected; refuse when the breaker is OPEN, with no cooldown check on this
path; otherwise append the message to the batch queue and report success
(the actual broker write happens later in processBatch). -/
def publishMessage (m : SyncManager) (msg : Nat) : Bool × SyncManager :=
  if m.isConnected = false then (false, m)
  else if m.circuitBreaker.state = BreakerState.opened then (false, m)
  else (true, { m with messageQueue := m.messageQueue ++ [msg] })

/-- The tail of the method named initialize of class
EnhancedRedisSyncManager, after the circuit-breaker gate: connection
attempts are rate limited to one per 5000 ms; a successful connection
resets the breaker to CLOSED with zero failures; a failed one runs
handleConnectionFailure.  The outcome of the broker connection attempt is
supplied as connectOk. -/
def connectAttempt (m1 : SyncManager) (now : Nat) (connectOk : Bool) :
    Bool × SyncManager :=
  if now - m1.lastConnectionAttempt < 5000 then (false, m1)
  else if connectOk then
    (true,
     { m1 with
       lastConnectionAttempt := now
       isConnected := true
       reconnectAttempts := 0
       circuitBreaker :=
         { m1.circuitBreaker with
           state := BreakerState.closed
           failures := 0 } })
  else (false, handleConnectionFailure { m1 with lastConnectionAttempt := now } now)

/-- The method named initialize of class EnhancedRedisSyncManager: an OPEN
breaker inside its cooldown window skips the connection attempt; an OPEN
breaker past the cooldown moves to HALF_OPEN before attempting; then the
attempt itself as in connectAttempt. -/
def connectManager (m : SyncManager) (now : Nat) (connectOk : Bool) :
    Bool × SyncManager :=
  if m.circuitBreaker.state = BreakerState.opened ∧
      now - m.circuitBreaker.lastFailure < m.circuitBreaker.timeout then
    (false, m)
  else
    connectAttempt
      (if m.circuitBreaker.state = BreakerState.opened then
        { m with circuitBreaker :=
            { m.circuitBreaker with state := BreakerState.halfOpen } }
       else m) now connectOk

/-! Connection admission of class EnhancedTicTacToeServer. -/

/-- One entry of the per-address rate limiter map. -/
structure RLEntry where
  count : Nat
  lastReset : Nat
deriving DecidableEq

/-- The admission-relevant state of class EnhancedTicTacToeServer: the
rateLimiter map keyed by source address, and the ids of the connections in
the clients map. -/
structure ConnState where
  rateLimiter : String → Option RLEntry
  clients : List String

/-- isRateLimited of class EnhancedTicTacToeServer: create a fresh window on
first sight of the address or when the window is older than 60000 ms; limit
once the window count has reached 30; otherwise count the connection. -/
def isRateLimited (st : ConnState) (ip : String) (now : Nat) :
    Bool × ConnState :=
  match st.rateLimiter ip with
  | none =>
    (false,
     { st with rateLimiter :=
         fun k => if k = ip then some ⟨1, now⟩ else st.rateLimiter k })
  | some limit =>
    if 60000 < now - limit.lastReset then
      (false,
       { st with rateLimiter :=
           fun k => if k = ip then some ⟨1, now⟩ else st.rateLimiter k })
    else if 30 ≤ limit.count then (true, st)
    else
      (false,
       { st with rateLimiter :=
           fun k =>
             if k = ip then some ⟨limit.count + 1, limit.lastReset⟩
             else st.rateLimiter k })

/-- Admission outcomes of handleNewConnectionWithRateLimit: close 1008 on a
rate limit, close 1013 at the connection cap, otherwise register. -/
inductive AdmitResult where
  | accepted
  | rateLimited
  | overloaded
deriving DecidableEq

/-- handleNewConnectionWithRateLimit of class EnhancedTicTacToeServer:
per-address limiter first, then the hard cap of 100 concurrent connections,
then registration of the client. -/
def handleNewConnection (st : ConnState) (ip clientId : String) (now : Nat) :
    AdmitResult × ConnState :=
  if (isRateLimited st ip now).1 then
    (AdmitResult.rateLimited, (isRateLimited st ip now).2)
  else if 100 ≤ (isRateLimited st ip now).2.clients.length then
    (AdmitResult.overloaded, (isRateLimited st ip now).2)
  else
    (AdmitResult.accepted,
     { (isRateLimited st ip now).2 with
       clients := (isRateLimited st ip now).2.clients ++ [clientId] })

/-- A sequence of arrivals (client id, time) from one source address, folded
through handleNewConnectionWithRateLimit; returns how many were accepted
and the final state. -/
def arrivalsRun (st : ConnState) (ip : String) :
    List (String × Nat) → Nat × ConnState
  | [] => (0, st)
  | a :: rest =>
    ((if (handleNewConnection st ip a.1 a.2).1 = AdmitResult.accepted then 1
      else 0) +
       (arrivalsRun (handleNewConnection st ip a.1 a.2).2 ip rest).1,
     (arrivalsRun (handleNewConnection st ip a.1 a.2).2 ip rest).2)

/-! The join path of class EnhancedTicTacToeServer. -/

/-- The method names defined by class EnhancedRedisSyncManager, transcribed
from the class body in source order. -/
def enhancedSyncMethods : List String :=
  ["initialize", "createReconnectStrategy", "connectWithTimeout",
   "setupErrorHandlers", "setupConnectionHandlers", "handleSyncMessageSafely",
   "validateSyncMessage", "processSyncMessage", "handleStateUpdateEnhanced",
   "isValidGameState", "publishMessage", "triggerBatchProcess", "processBatch",
   "publishSingleMessage", "startBatchProcessor", "publishStateUpdate",
   "publishPlayerJoin", "publishPlayerLeave", "publishMove", "publishGameReset",
   "publishHeartbeat", "handleRedisError", "handlePublishError",
   "handleConnectionFailure", "scheduleReconnection", "updateLatencyMetrics",
   "getMetrics", "cleanup", "sleep", "handlePlayerJoinEnhanced",
   "handlePlayerLeaveEnhanced", "handleMoveSyncEnhanced",
   "handleGameResetEnhanced", "handleHeartbeat"]

/-- The value the join handler reads from the sync result. -/
structure SyncQueryResult where
  playerCount : Option Nat
deriving DecidableEq

/-- Calling syncManager.requestGameSync() in JS: property lookup on the
manager followed by a call.  When the class defines no such method the
property is undefined and the call throws a TypeError, embedded as the
error of an Except.  The ok branch carries a dummy value; it is reachable
only if the method existed on the class. -/
def callRequestGameSync : Except Unit SyncQueryResult :=
  if enhancedSyncMethods.contains "requestGameSync" then
    Except.ok { playerCount := none }
  else Except.error ()

/-- Replies the join handler can send to the requesting client. -/
inductive JoinReply where
  | joined (playerId : String) (playerSymbol : Option Player)
  | errorMsg (reason : String)
deriving DecidableEq

/-- The try block of handlePlayerJoinEnhanced of class
EnhancedTicTacToeServer: query the global state via requestGameSync, then
add the player with the resulting global count and answer accordingly. -/
def joinTryBlock (g : Game) (playerId : String) :
    Except Unit (JoinReply × Game) := do
  let syncResult ← callRequestGameSync
  let globalPlayerCount := syncResult.playerCount.getD 0
  let r := addPlayer g playerId globalPlayerCount
  if r.1.success then
    Except.ok (JoinReply.joined playerId r.1.playerSymbol, r.2)
  else
    Except.ok (JoinReply.errorMsg "join rejected", r.2)

/-- handlePlayerJoinEnhanced of class EnhancedTicTacToeServer: the try block
above with its catch branch, which reports the fixed error text. -/
def handlePlayerJoinEnhanced (g : Game) (playerId : String) :
    JoinReply × Game :=
  match joinTryBlock g playerId with
  | Except.ok r => r
  | Except.error _ => (JoinReply.errorMsg "Failed to join game", g)

/-! Reachability through the state machine operations, and the measures the
data-model invariant speaks about. -/

/-- Weight of a cell: 1 when non-empty. -/
def cellWeight : Cell → Nat
  | Cell.empty => 0
  | Cell.mark _ => 1

/-- Number of non-empty cells of a board. -/
def countNonEmpty (b : Board) : Nat := ∑ p : Pos, cellWeight (b p)

/-- A game state reachable from the constructor state through the state
machine operations join, move, leave, reset. -/
inductive Reachable : Game → Prop where
  | init : Reachable initialGame
  | joinStep (g : Game) (pid : String) (n : Nat) :
      Reachable g → Reachable (addPlayer g pid n).2
  | moveStep (g : Game) (row col : Int) (pid : String) :
      Reachable g → Reachable (makeMove g row col pid).2
  | leaveStep (g : Game) (pid : String) :
      Reachable g → Reachable (removePlayer g pid)
  | resetStep (g : Game) :
      Reachable g → Reachable (resetGame g)

/-- The part of the spec data-model invariant that the code maintains:
Playing implies exactly two participants, and moveCount counts the
non-empty cells. -/
def gameInv (g : Game) : Prop :=
  (g.gameStatus = Status.playing → g.players.length = 2) ∧
  g.moveCount = countNonEmpty g.board

/-! Concrete instances used by the claim theorems, their witnesses and
counterexamples. -/

/-- A local game state with one move played and two participants. -/
def c1Local : Game :=
  { board := Function.update createEmptyBoard ((0 : Fin 3), (0 : Fin 3)) (Cell.mark Player.X)
    currentPlayer := Player.O
    gameStatus := Status.playing
    winner := none
    players := ["a", "b"]
    moveCount := 1 }

/-- An inbound snapshot strictly behind c1Local: no moves, no participants. -/
def c1Snap : Snapshot :=
  { board := createEmptyBoard
    currentPlayer := Player.X
    gameStatus := Status.waiting
    winner := none
    players := []
    moveCount := 0
    timestamp := none }

/-- A stateUpdate message from a peer carrying the stale snapshot. -/
def c1Msg : StateUpdateMsg :=
  { serverId := "peer", gameState := some c1Snap, timestamp := 5 }

/-- A manager whose breaker is OPEN with the threshold reached. -/
def c2OpenedMgr : SyncManager :=
  { initialManager with
    isConnected := true
    circuitBreaker :=
      { initialManager.circuitBreaker with
        state := BreakerState.opened
        failures := 5
        lastFailure := 10 } }

/-- A mid-game position where X completes the top row by playing (0,2). -/
def c3Game : Game :=
  { board := fun p =>
      if p = ((0 : Fin 3), (0 : Fin 3)) ∨ p = ((0 : Fin 3), (1 : Fin 3)) then
        Cell.mark Player.X
      else if p = ((1 : Fin 3), (0 : Fin 3)) ∨ p = ((1 : Fin 3), (1 : Fin 3)) then
        Cell.mark Player.O
      else Cell.empty
    currentPlayer := Player.X
    gameStatus := Status.playing
    winner := none
    players := ["a", "b"]
    moveCount := 4 }

/-- A board whose top row is filled with X. -/
def c3Board : Board := fun p => if p.1 = 0 then Cell.mark Player.X else Cell.empty

/-- The state trace of the C6 counterexample: two joins, five moves giving X
the top row, then a leave and a fresh join after the game finished. -/
def c6g1 : Game := (addPlayer initialGame "a" 0).2

def c6g2 : Game := (addPlayer c6g1 "b" 1).2

def c6g3 : Game := (makeMove c6g2 0 0 "a").2

def c6g4 : Game := (makeMove c6g3 1 0 "b").2

def c6g5 : Game := (makeMove c6g4 0 1 "a").2

def c6g6 : Game := (makeMove c6g5 1 1 "b").2

def c6g7 : Game := (makeMove c6g6 0 2 "a").2

def c6g8 : Game := removePlayer c6g7 "a"

def c6g9 : Game := (addPlayer c6g8 "c" 0).2

/-- A full-board-minus-one position with no winning line; X draws at (2,1). -/
def c7Board : Board := fun p =>
  if p = ((0 : Fin 3), (0 : Fin 3)) then Cell.mark Player.X
  else if p = ((0 : Fin 3), (1 : Fin 3)) then Cell.mark Player.X
  else if p = ((0 : Fin 3), (2 : Fin 3)) then Cell.mark Player.O
  else if p = ((1 : Fin 3), (0 : Fin 3)) then Cell.mark Player.O
  else if p = ((1 : Fin 3), (1 : Fin 3)) then Cell.mark Player.O
  else if p = ((1 : Fin 3), (2 : Fin 3)) then Cell.mark Player.X
  else if p = ((2 : Fin 3), (0 : Fin 3)) then Cell.mark Player.X
  else if p = ((2 : Fin 3), (2 : Fin 3)) then Cell.mark Player.O
  else Cell.empty

/-- The game holding c7Board with eight moves played and X to move. -/
def c7Game : Game :=
  { board := c7Board
    currentPlayer := Player.X
    gameStatus := Status.playing
    winner := none
    players := ["a", "b"]
    moveCount := 8 }

/-- An admission state whose window for one address is exhausted. -/
def c8Limited : ConnState :=
  { rateLimiter := fun k => if k = "10.0.0.9" then some ⟨30, 100⟩ else none
    clients := [] }

/-- An admission state at the concurrent-connection cap. -/
def c8Full : ConnState :=
  { rateLimiter := fun _ => none
    clients := List.replicate 100 "c" }

/-- An admission state that has seen nothing yet. -/
def c8Fresh : ConnState :=
  { rateLimiter := fun _ => none
    clients := [] }

/-- A two-participant playing game with O to move, for the C10 witness. -/
def c10Game : Game :=
  { board := createEmptyBoard
    currentPlayer := Player.O
    gameStatus := Status.playing
    winner := none
    players := ["p1", "p2"]
    moveCount := 0 }

end TicTacToe

/-! Helper lemmas about the game state machine. -/

namespace TicTacToe

theorem validateMove_eq_none_iff (g : Game) (row col : Int) (pid : String) :
    validateMove g row col pid = none ↔
      g.gameStatus = Status.playing ∧
      getPlayerSymbol g pid = g.currentPlayer ∧
      ¬(row < 0 ∨ 2 < row ∨ col < 0 ∨ 2 < col) ∧
      cellAt g.board row col = Cell.empty := by
  unfold validateMove
  split_ifs with h1 h2 h3 h4 <;> simp_all

theorem makeMove_reject {g : Game} {row col : Int} {pid : String}
    {r : MoveReject} (h : validateMove g row col pid = some r) :
    makeMove g row col pid =
      ({ success := false, reject := some r, gameOver := false, winner := none,
         winningLine := none }, g) := by
  simp [makeMove, h]

theorem makeMove_valid_result {g : Game} {row col : Int} {pid : String}
    (h : validateMove g row col pid = none) :
    (makeMove g row col pid).1.success = true ∧
    (makeMove g row col pid).1.reject = none ∧
    (makeMove g row col pid).2.board =
      setCell g.board row col (Cell.mark (getPlayerSymbol g pid)) ∧
    (makeMove g row col pid).2.moveCount = g.moveCount + 1 ∧
    (makeMove g row col pid).2.players = g.players := by
  simp only [makeMove, h]
  rcases hw : checkWinCondition
      (setCell g.board row col (Cell.mark (getPlayerSymbol g pid))) with _ | pl
  · simp only [hw]
    split_ifs <;> simp
  · rcases pl with ⟨w, l⟩
    simp [hw]

theorem makeMove_win {g : Game} {row col : Int} {pid : String}
    {w : Player} {l : Fin 8} (h : validateMove g row col pid = none)
    (hw : checkWinCondition
      (setCell g.board row col (Cell.mark (getPlayerSymbol g pid))) = some (w, l)) :
    makeMove g row col pid =
      ({ success := true, reject := none, gameOver := true,
         winner := some (WinnerVal.player w), winningLine := some l },
       { g with
         board := setCell g.board row col (Cell.mark (getPlayerSymbol g pid))
         moveCount := g.moveCount + 1
         gameStatus := Status.finished
         winner := some w }) := by
  simp [makeMove, h, hw]

theorem makeMove_draw {g : Game} {row col : Int} {pid : String}
    (h : validateMove g row col pid = none)
    (hw : checkWinCondition
      (setCell g.board row col (Cell.mark (getPlayerSymbol g pid))) = none)
    (h9 : g.moveCount + 1 = 9) :
    makeMove g row col pid =
      ({ success := true, reject := none, gameOver := true,
         winner := some WinnerVal.draw, winningLine := none },
       { g with
         board := setCell g.board row col (Cell.mark (getPlayerSymbol g pid))
         moveCount := g.moveCount + 1
         gameStatus := Status.finished }) := by
  simp [makeMove, h, hw, h9]

theorem makeMove_flip {g : Game} {row col : Int} {pid : String}
    (h : validateMove g row col pid = none)
    (hw : checkWinCondition
      (setCell g.board row col (Cell.mark (getPlayerSymbol g pid))) = none)
    (h9 : g.moveCount + 1 ≠ 9) :
    makeMove g row col pid =
      ({ success := true, reject := none, gameOver := false,
         winner := none, winningLine := none },
       { g with
         board := setCell g.board row col (Cell.mark (getPlayerSymbol g pid))
         moveCount := g.moveCount + 1
         currentPlayer :=
           if g.currentPlayer = Player.X then Player.O else Player.X }) := by
  simp [makeMove, h, hw, h9]

theorem toPos_eq_some_of_bounds {row col : Int}
    (h : ¬(row < 0 ∨ 2 < row ∨ col < 0 ∨ 2 < col)) :
    ∃ p, toPos row col = some p := by
  unfold toPos
  rw [dif_pos (by omega)]
  exact ⟨_, rfl⟩

theorem cellAt_setCell_self {b : Board} {row col : Int} {p : Pos} {v : Cell}
    (h : toPos row col = some p) :
    cellAt (setCell b row col v) row col = v := by
  simp [cellAt, setCell, h]

end TicTacToe

/-! Claim theorems. -/

namespace TicTacToe

/-- C1 counterexample: a structurally valid inbound snapshot with strictly
smaller moveCount and fewer participants than the local state is still
applied by both state-update handlers, so processing the update does not
leave the local game state unchanged. -/
theorem c1_counterexample :
    c1Snap.moveCount < c1Local.moveCount ∧
    c1Snap.players.length ≤ c1Local.players.length ∧
    validateSyncMessage c1Msg = true ∧
    (handleStateUpdateEnhanced c1Local c1Msg).moveCount ≠ c1Local.moveCount ∧
    (handleStateUpdate c1Local c1Msg).moveCount ≠ c1Local.moveCount := by
  refine ⟨by decide, by decide, by decide, ?_, ?_⟩ <;> decide

/-- C1 amended: the enhanced handler compares the message timestamp against
the timestamp property of the local getGameState value, which is always
absent and defaults to 0; hence every stateUpdate carrying a snapshot and a
positive timestamp overwrites the local state, and the basic handler
applies every snapshot unconditionally.  No participants-then-moveCount
recency gate exists. -/
theorem c1_snapshot_applied_unconditionally :
    ∀ (g : Game) (d : StateUpdateMsg) (s : Snapshot),
      d.gameState = some s → 0 < d.timestamp →
      handleStateUpdateEnhanced g d = updateState g s ∧
      handleStateUpdate g d = updateState g s := by
  intro g d s hs ht
  constructor
  · simp [handleStateUpdateEnhanced, hs, isValidGameState, getGameState, ht]
  · simp [handleStateUpdate, hs]

/-- C1 witness: the amended statement applied to the concrete stale
snapshot. -/
theorem c1_witness :
    handleStateUpdateEnhanced c1Local c1Msg = updateState c1Local c1Snap ∧
    handleStateUpdate c1Local c1Msg = updateState c1Local c1Snap :=
  c1_snapshot_applied_unconditionally c1Local c1Msg c1Snap rfl (by decide)

/-- C2 counterexample: a broker publish failure does not increment the
circuit breaker failure count; handlePublishError only counts the error in
the metrics. -/
theorem c2_counterexample :
    ¬((handlePublishError initialManager).circuitBreaker.failures =
        initialManager.circuitBreaker.failures + 1) := by
  decide

/-- C2 amended: the breaker starts Closed with zero failures; Redis error
events and connection failures increment failureCount and open the breaker
at the threshold; publish failures increment only the error metric and
leave the breaker untouched; while the breaker is Open every publish call
returns failure immediately without touching the queue (the publish path
performs no cooldown check; only the connect path does); a successful
connection resets the breaker to Closed and zeroes failureCount. -/
theorem c2_breaker_amended :
    (initialManager.circuitBreaker.state = BreakerState.closed ∧
     initialManager.circuitBreaker.failures = 0) ∧
    (∀ (m : SyncManager) (now : Nat),
      (handleRedisError m now).circuitBreaker.failures =
        m.circuitBreaker.failures + 1 ∧
      (m.circuitBreaker.threshold ≤ m.circuitBreaker.failures + 1 →
        (handleRedisError m now).circuitBreaker.state = BreakerState.opened)) ∧
    (∀ (m : SyncManager) (now : Nat),
      (handleConnectionFailure m now).circuitBreaker.failures =
        m.circuitBreaker.failures + 1 ∧
      (m.circuitBreaker.threshold ≤ m.circuitBreaker.failures + 1 →
        (handleConnectionFailure m now).circuitBreaker.state =
          BreakerState.opened)) ∧
    (∀ m : SyncManager,
      (handlePublishError m).circuitBreaker = m.circuitBreaker ∧
      (handlePublishError m).metricsErrors = m.metricsErrors + 1 ∧
      (handlePublishError m).messageQueue = m.messageQueue) ∧
    (∀ (m : SyncManager) (msg : Nat),
      m.circuitBreaker.state = BreakerState.opened →
      publishMessage m msg = (false, m)) ∧
    (∀ (m : SyncManager) (now : Nat) (ok : Bool),
      (connectManager m now ok).1 = true →
      (connectManager m now ok).2.circuitBreaker.state = BreakerState.closed ∧
      (connectManager m now ok).2.circuitBreaker.failures = 0 ∧
      (connectManager m now ok).2.isConnected = true) := by
  refine ⟨⟨rfl, rfl⟩, ?_, ?_, ?_, ?_, ?_⟩
  · intro m now
    simp only [handleRedisError, scheduleReconnection]
    split_ifs <;> simp_all
  · intro m now
    simp only [handleConnectionFailure]
    split_ifs <;> simp_all
  · intro m
    simp [handlePublishError]
  · intro m msg h
    cases hc : m.isConnected <;> simp [publishMessage, hc, h]
  · intro m now ok h
    revert h
    unfold connectManager connectAttempt
    split_ifs <;> simp [handleConnectionFailure]

/-- C2 witness: the amended statement applied to a concrete OPEN manager
and a concrete successful reconnection. -/
theorem c2_witness :
    publishMessage c2OpenedMgr 7 = (false, c2OpenedMgr) ∧
    ((connectManager c2OpenedMgr 100000 true).2.circuitBreaker.state =
        BreakerState.closed ∧
     (connectManager c2OpenedMgr 100000 true).2.circuitBreaker.failures = 0 ∧
     (connectManager c2OpenedMgr 100000 true).2.isConnected = true) ∧
    (handleRedisError initialManager 3).circuitBreaker.failures =
      initialManager.circuitBreaker.failures + 1 :=
  ⟨c2_breaker_amended.2.2.2.2.1 c2OpenedMgr 7 (by decide),
   c2_breaker_amended.2.2.2.2.2 c2OpenedMgr 100000 true (by decide),
   (c2_breaker_amended.2.1 initialManager 3).1⟩

/-- C4: join gives mark X (the mark the spec calls A) exactly when the
larger of the local participant count and the supplied global count is 0,
otherwise O; a join is rejected, leaving the state unchanged, when that
count has reached 2 or when the participant id is already present; on a
successful join the id is appended and the status becomes Playing exactly
when the local participant list reaches size 2, staying unchanged
otherwise. -/
theorem c4_join_assignment :
    (∀ (g : Game) (pid : String) (n : Nat),
      (addPlayer g pid n).1.success = true →
      (((addPlayer g pid n).1.playerSymbol = some Player.X) ↔
        max g.players.length n = 0)) ∧
    (∀ (g : Game) (pid : String) (n : Nat),
      2 ≤ max g.players.length n →
      (addPlayer g pid n).1.success = false ∧ (addPlayer g pid n).2 = g) ∧
    (∀ (g : Game) (pid : String) (n : Nat),
      pid ∈ g.players →
      (addPlayer g pid n).1.success = false ∧ (addPlayer g pid n).2 = g) ∧
    (∀ (g : Game) (pid : String) (n : Nat),
      (addPlayer g pid n).1.success = true →
      (addPlayer g pid n).2.players = g.players ++ [pid] ∧
      (addPlayer g pid n).2.gameStatus =
        (if g.players.length + 1 = 2 then Status.playing else g.gameStatus)) := by
  refine ⟨?_, ?_, ?_, ?_⟩ <;> intro g pid n
  · intro hs
    by_cases hfull : 2 ≤ max g.players.length n
    · simp [addPlayer, hfull] at hs
    · by_cases hmem : pid ∈ g.players
      · simp [addPlayer, hfull, hmem] at hs
      · by_cases h0 : max g.players.length n = 0 <;>
          simp [addPlayer, hfull, hmem, h0]
  · intro h2
    simp [addPlayer, h2]
  · intro hmem
    by_cases hfull : 2 ≤ max g.players.length n
    · simp [addPlayer, hfull]
    · simp [addPlayer, hfull, hmem]
  · intro hs
    by_cases hfull : 2 ≤ max g.players.length n
    · simp [addPlayer, hfull] at hs
    · by_cases hmem : pid ∈ g.players
      · simp [addPlayer, hfull, hmem] at hs
      · simp [addPlayer, hfull, hmem]

/-- C4 witness: the statement applied to a first join, a join of a known
id, and a third join on a concrete two-participant game. -/
theorem c4_witness :
    (((addPlayer initialGame "a" 0).1.playerSymbol = some Player.X) ↔
      max initialGame.players.length 0 = 0) ∧
    ((addPlayer c6g2 "c" 2).1.success = false ∧ (addPlayer c6g2 "c" 2).2 = c6g2) ∧
    ((addPlayer c6g2 "a" 0).1.success = false ∧ (addPlayer c6g2 "a" 0).2 = c6g2) ∧
    ((addPlayer c6g1 "b" 1).2.players = c6g1.players ++ ["b"] ∧
     (addPlayer c6g1 "b" 1).2.gameStatus =
       (if c6g1.players.length + 1 = 2 then Status.playing else c6g1.gameStatus)) :=
  ⟨c4_join_assignment.1 initialGame "a" 0 (by decide),
   c4_join_assignment.2.1 c6g2 "c" 2 (by decide),
   c4_join_assignment.2.2.1 c6g2 "a" 0 (by decide),
   c4_join_assignment.2.2.2 c6g1 "b" 1 (by decide)⟩

/-- C5: a move is rejected exactly when the game is not playing, or the
mark derived from join order differs from the turn, or the coordinates are
out of 0..2, or the target cell is occupied; a rejection leaves the state
unchanged; and the reported reason is the first failing condition in that
fixed order. -/
theorem c5_move_validation :
    ∀ (g : Game) (row col : Int) (pid : String),
      ((makeMove g row col pid).1.success = false ↔
        (g.gameStatus ≠ Status.playing ∨
         getPlayerSymbol g pid ≠ g.currentPlayer ∨
         (row < 0 ∨ 2 < row ∨ col < 0 ∨ 2 < col) ∨
         cellAt g.board row col ≠ Cell.empty)) ∧
      ((makeMove g row col pid).1.success = false →
        (makeMove g row col pid).2 = g) ∧
      (makeMove g row col pid).1.reject =
        (if g.gameStatus ≠ Status.playing then some MoveReject.notPlaying
         else if getPlayerSymbol g pid ≠ g.currentPlayer then
           some (MoveReject.wrongTurn g.currentPlayer)
         else if row < 0 ∨ 2 < row ∨ col < 0 ∨ 2 < col then
           some MoveReject.outOfBounds
         else if cellAt g.board row col ≠ Cell.empty then
           some MoveReject.occupied
         else none) := by
  intro g row col pid
  have hdef : validateMove g row col pid =
      (if g.gameStatus ≠ Status.playing then some MoveReject.notPlaying
       else if getPlayerSymbol g pid ≠ g.currentPlayer then
         some (MoveReject.wrongTurn g.currentPlayer)
       else if row < 0 ∨ 2 < row ∨ col < 0 ∨ 2 < col then
         some MoveReject.outOfBounds
       else if cellAt g.board row col ≠ Cell.empty then
         some MoveReject.occupied
       else none) := rfl
  rcases hv : validateMove g row col pid with _ | r
  · have hres := makeMove_valid_result hv
    have hno := (validateMove_eq_none_iff g row col pid).1 hv
    refine ⟨?_, ?_, ?_⟩
    · rw [hres.1]
      simp only [Bool.true_eq_false, false_iff]
      push_neg
      obtain ⟨hn1, hn2, hn3, hn4⟩ := hno
      exact ⟨hn1, hn2, by omega, hn4⟩
    · intro hfail
      rw [hres.1] at hfail
      exact absurd hfail (by simp)
    · rw [hres.2.1, ← hdef, hv]
  · have hres := makeMove_reject hv
    refine ⟨?_, ?_, ?_⟩
    · rw [hres]
      simp only [true_iff]
      by_contra hcon
      push_neg at hcon
      obtain ⟨hc1, hc2, hc3, hc4⟩ := hcon
      have : validateMove g row col pid = none :=
        (validateMove_eq_none_iff g row col pid).2 ⟨hc1, hc2, by omega, hc4⟩
      rw [hv] at this
      exact Option.noConfusion this
    · intro _
      rw [hres]
    · rw [hres, ← hdef, hv]

/-- C5 witness: the statement applied to a move on a waiting game, whose
first failing condition is the status check. -/
theorem c5_witness :
    (makeMove initialGame 0 0 "z").2 = initialGame ∧
    (makeMove initialGame 0 0 "z").1.reject = some MoveReject.notPlaying := by
  refine ⟨(c5_move_validation initialGame 0 0 "z").2.1 (by decide), ?_⟩
  have h := (c5_move_validation initialGame 0 0 "z").2.2
  rw [h]
  decide

end TicTacToe

namespace TicTacToe

/-- C7 counterexample: a ninth accepted move that fills the board with no
winning line finishes the game, but the stored winner field of the game
state remains null rather than becoming Draw; only the move result reports
the draw. -/
theorem c7_counterexample :
    (makeMove c7Game 2 1 "a").1.success = true ∧
    (makeMove c7Game 2 1 "a").2.moveCount = 9 ∧
    checkWinCondition ((makeMove c7Game 2 1 "a").2.board) = none ∧
    (makeMove c7Game 2 1 "a").2.gameStatus = Status.finished ∧
    (makeMove c7Game 2 1 "a").2.winner = none ∧
    (makeMove c7Game 2 1 "a").1.winner = some WinnerVal.draw := by
  refine ⟨?_, ?_, ?_, ?_, ?_, ?_⟩ <;> decide

/-- C7 amended: an accepted move that reaches moveCount 9 on a board with
no winning line finishes the game and reports gameOver with winner Draw in
the move result, while the stored winner field stays what it was (null in
every reachable such state). -/
theorem c7_draw_result :
    ∀ (g : Game) (row col : Int) (pid : String),
      (makeMove g row col pid).1.success = true →
      (makeMove g row col pid).2.moveCount = 9 →
      checkWinCondition ((makeMove g row col pid).2.board) = none →
      (makeMove g row col pid).1.gameOver = true ∧
      (makeMove g row col pid).1.winner = some WinnerVal.draw ∧
      (makeMove g row col pid).2.gameStatus = Status.finished ∧
      (makeMove g row col pid).2.winner = g.winner := by
  intro g row col pid hs h9 hnowin
  rcases hv : validateMove g row col pid with _ | r
  · rcases hw : checkWinCondition
        (setCell g.board row col (Cell.mark (getPlayerSymbol g pid))) with _ | wl
    · have hmc : g.moveCount + 1 = 9 := by
        have := (makeMove_valid_result hv).2.2.2.1
        omega
      rw [makeMove_draw hv hw hmc]
      exact ⟨rfl, rfl, rfl, rfl⟩
    · rcases wl with ⟨w, l⟩
      rw [makeMove_win hv hw] at hnowin
      simp only at hnowin
      rw [hw] at hnowin
      exact absurd hnowin (by simp)
  · rw [makeMove_reject hv] at hs
    exact absurd hs (by simp)

/-- C7 witness: the amended statement applied to the concrete draw. -/
theorem c7_witness :
    (makeMove c7Game 2 1 "a").1.gameOver = true ∧
    (makeMove c7Game 2 1 "a").1.winner = some WinnerVal.draw ∧
    (makeMove c7Game 2 1 "a").2.gameStatus = Status.finished ∧
    (makeMove c7Game 2 1 "a").2.winner = c7Game.winner :=
  c7_draw_result c7Game 2 1 "a" (by decide) (by decide) (by decide)

/-- C9: class EnhancedRedisSyncManager defines no method named
requestGameSync, so the join handler of class EnhancedTicTacToeServer
always takes its catch branch: every join processed through it answers the
fixed error text and leaves the game unchanged, and no participant is ever
added on this path. -/
theorem c9_join_always_fails :
    enhancedSyncMethods.contains "requestGameSync" = false ∧
    ∀ (g : Game) (pid : String),
      handlePlayerJoinEnhanced g pid =
        (JoinReply.errorMsg "Failed to join game", g) := by
  constructor
  · decide
  · intro g pid
    have h1 : joinTryBlock g pid = Except.error () := rfl
    simp [handlePlayerJoinEnhanced, h1]

/-- C10: getPlayerSymbol answers O for every id that is not the head of
the join list, including ids that never joined; consequently, on a playing
game where it is the turn of O, a move by a never-joined id onto an
in-bounds empty cell is accepted and places the mark O. -/
theorem c10_ghost_player :
    (∀ (g : Game) (pid : String),
      g.players.head? ≠ some pid → getPlayerSymbol g pid = Player.O) ∧
    (∀ (g : Game) (row col : Int) (pid : String),
      pid ∉ g.players →
      g.gameStatus = Status.playing →
      g.currentPlayer = Player.O →
      ¬(row < 0 ∨ 2 < row ∨ col < 0 ∨ 2 < col) →
      cellAt g.board row col = Cell.empty →
      (makeMove g row col pid).1.success = true ∧
      cellAt ((makeMove g row col pid).2.board) row col =
        Cell.mark Player.O) := by
  have hsym : ∀ (g : Game) (pid : String),
      g.players.head? ≠ some pid → getPlayerSymbol g pid = Player.O := by
    intro g pid h
    rcases hp : g.players with _ | ⟨p, rest⟩
    · simp [getPlayerSymbol, hp]
    · have hne : p ≠ pid := by
        intro he
        rw [hp] at h
        simp only [List.head?_cons] at h
        exact h (by rw [he])
      simp [getPlayerSymbol, hp, hne]
  refine ⟨hsym, ?_⟩
  intro g row col pid hmem hst hturn hbounds hcell
  have hh : g.players.head? ≠ some pid := by
    intro hc
    exact hmem (List.mem_of_mem_head? hc)
  have hsymO := hsym g pid hh
  have hv : validateMove g row col pid = none :=
    (validateMove_eq_none_iff g row col pid).2
      ⟨hst, by rw [hsymO, hturn], hbounds, hcell⟩
  have hres := makeMove_valid_result hv
  obtain ⟨p, hp⟩ := toPos_eq_some_of_bounds hbounds
  refine ⟨hres.1, ?_⟩
  rw [hres.2.2.1, hsymO]
  exact cellAt_setCell_self hp

/-- C10 witness: the statement applied to a never-joined id moving on a
concrete playing game where O is to move. -/
theorem c10_witness :
    getPlayerSymbol c10Game "ghost" = Player.O ∧
    (makeMove c10Game 1 1 "ghost").1.success = true ∧
    cellAt ((makeMove c10Game 1 1 "ghost").2.board) 1 1 =
      Cell.mark Player.O :=
  ⟨c10_ghost_player.1 c10Game "ghost" (by decide),
   c10_ghost_player.2 c10Game 1 1 "ghost" (by decide) (by decide) (by decide)
     (by decide) (by decide)⟩

end TicTacToe

namespace TicTacToe

theorem checkWin_none_lines {b : Board} (h : checkWinCondition b = none) :
    ∀ i : Fin 8, lineWinner b (line i) = none := by
  unfold checkWinCondition at h
  rcases h0 : lineWinner b (line 0) with _ | p0 <;> simp only [h0] at h
  case some => exact absurd h (by simp)
  rcases h1 : lineWinner b (line 1) with _ | p1 <;> simp only [h1] at h
  case some => exact absurd h (by simp)
  rcases h2 : lineWinner b (line 2) with _ | p2 <;> simp only [h2] at h
  case some => exact absurd h (by simp)
  rcases h3 : lineWinner b (line 3) with _ | p3 <;> simp only [h3] at h
  case some => exact absurd h (by simp)
  rcases h4 : lineWinner b (line 4) with _ | p4 <;> simp only [h4] at h
  case some => exact absurd h (by simp)
  rcases h5 : lineWinner b (line 5) with _ | p5 <;> simp only [h5] at h
  case some => exact absurd h (by simp)
  rcases h6 : lineWinner b (line 6) with _ | p6 <;> simp only [h6] at h
  case some => exact absurd h (by simp)
  rcases h7 : lineWinner b (line 7) with _ | p7 <;> simp only [h7] at h
  case some => exact absurd h (by simp)
  intro i
  fin_cases i <;> assumption

theorem checkWin_some_first {b : Board} {q : Player} {j : Fin 8}
    (h : checkWinCondition b = some (q, j)) :
    lineWinner b (line j) = some q ∧
    ∀ k : Fin 8, k < j → lineWinner b (line k) = none := by
  unfold checkWinCondition at h
  rcases h0 : lineWinner b (line 0) with _ | p0 <;> simp only [h0] at h
  case some =>
    obtain ⟨rfl, rfl⟩ : p0 = q ∧ (0 : Fin 8) = j := by
      simpa using h
    exact ⟨h0, fun k hk => absurd hk (by simp)⟩
  rcases h1 : lineWinner b (line 1) with _ | p1 <;> simp only [h1] at h
  case some =>
    obtain ⟨rfl, rfl⟩ : p1 = q ∧ (1 : Fin 8) = j := by
      simpa using h
    refine ⟨h1, fun k hk => ?_⟩
    fin_cases k <;> first | assumption | exact absurd hk (by decide)
  rcases h2 : lineWinner b (line 2) with _ | p2 <;> simp only [h2] at h
  case some =>
    obtain ⟨rfl, rfl⟩ : p2 = q ∧ (2 : Fin 8) = j := by
      simpa using h
    refine ⟨h2, fun k hk => ?_⟩
    fin_cases k <;> first | assumption | exact absurd hk (by decide)
  rcases h3 : lineWinner b (line 3) with _ | p3 <;> simp only [h3] at h
  case some =>
    obtain ⟨rfl, rfl⟩ : p3 = q ∧ (3 : Fin 8) = j := by
      simpa using h
    refine ⟨h3, fun k hk => ?_⟩
    fin_cases k <;> first | assumption | exact absurd hk (by decide)
  rcases h4 : lineWinner b (line 4) with _ | p4 <;> simp only [h4] at h
  case some =>
    obtain ⟨rfl, rfl⟩ : p4 = q ∧ (4 : Fin 8) = j := by
      simpa using h
    refine ⟨h4, fun k hk => ?_⟩
    fin_cases k <;> first | assumption | exact absurd hk (by decide)
  rcases h5 : lineWinner b (line 5) with _ | p5 <;> simp only [h5] at h
  case some =>
    obtain ⟨rfl, rfl⟩ : p5 = q ∧ (5 : Fin 8) = j := by
      simpa using h
    refine ⟨h5, fun k hk => ?_⟩
    fin_cases k <;> first | assumption | exact absurd hk (by decide)
  rcases h6 : lineWinner b (line 6) with _ | p6 <;> simp only [h6] at h
  case some =>
    obtain ⟨rfl, rfl⟩ : p6 = q ∧ (6 : Fin 8) = j := by
      simpa using h
    refine ⟨h6, fun k hk => ?_⟩
    fin_cases k <;> first | assumption | exact absurd hk (by decide)
  rcases h7 : lineWinner b (line 7) with _ | p7 <;> simp only [h7] at h
  case some =>
    obtain ⟨rfl, rfl⟩ : p7 = q ∧ (7 : Fin 8) = j := by
      simpa using h
    refine ⟨h7, fun k hk => ?_⟩
    fin_cases k <;> first | assumption | exact absurd hk (by decide)
  exact absurd h (by simp)

end TicTacToe

namespace TicTacToe

/-- C3: if any of the 8 lines is uniformly marked, checkWinCondition
reports a win, namely the first complete line in the fixed order rows,
columns, diagonals; if no line is complete it reports none; and an
accepted move after which the board has a winning line finishes the game
with that winner recorded in the state and in the result. -/
theorem c3_win_detection :
    (∀ (b : Board) (i : Fin 8) (p : Player),
      lineWinner b (line i) = some p →
      ∃ (q : Player) (j : Fin 8),
        checkWinCondition b = some (q, j) ∧ j ≤ i ∧
        lineWinner b (line j) = some q ∧
        ∀ k : Fin 8, k < j → lineWinner b (line k) = none) ∧
    (∀ b : Board, (∀ i : Fin 8, lineWinner b (line i) = none) →
      checkWinCondition b = none) ∧
    (∀ (g : Game) (row col : Int) (pid : String) (q : Player) (j : Fin 8),
      (makeMove g row col pid).1.success = true →
      checkWinCondition ((makeMove g row col pid).2.board) = some (q, j) →
      (makeMove g row col pid).2.gameStatus = Status.finished ∧
      (makeMove g row col pid).2.winner = some q ∧
      (makeMove g row col pid).1.winner = some (WinnerVal.player q) ∧
      (makeMove g row col pid).1.winningLine = some j) := by
  refine ⟨?_, ?_, ?_⟩
  · intro b i p h
    rcases hc : checkWinCondition b with _ | qj
    · exact absurd (checkWin_none_lines hc i) (by simp [h])
    · rcases qj with ⟨q, j⟩
      obtain ⟨hj, hfirst⟩ := checkWin_some_first hc
      refine ⟨q, j, rfl, ?_, hj, hfirst⟩
      by_contra hlt
      push_neg at hlt
      have hni := hfirst i hlt
      rw [h] at hni
      exact Option.noConfusion hni
  · intro b hall
    rcases hc : checkWinCondition b with _ | qj
    · rfl
    · rcases qj with ⟨q, j⟩
      have hj := (checkWin_some_first hc).1
      rw [hall j] at hj
      exact Option.noConfusion hj
  · intro g row col pid q j hs hc
    rcases hv : validateMove g row col pid with _ | r
    · rcases hw : checkWinCondition
          (setCell g.board row col (Cell.mark (getPlayerSymbol g pid))) with _ | wl
      · by_cases h9 : g.moveCount + 1 = 9
        · rw [makeMove_draw hv hw h9] at hc
          simp only at hc
          rw [hw] at hc
          exact Option.noConfusion hc
        · rw [makeMove_flip hv hw h9] at hc
          simp only at hc
          rw [hw] at hc
          exact Option.noConfusion hc
      · rcases wl with ⟨w, l⟩
        rw [makeMove_win hv hw] at hc ⊢
        simp only at hc ⊢
        rw [hw] at hc
        simp only [Option.some.injEq, Prod.mk.injEq] at hc
        obtain ⟨rfl, rfl⟩ := hc
        simp
    · rw [makeMove_reject hv] at hs
      exact absurd hs (by simp)

/-- C3 witness: the statement applied to a board with a complete top row,
to the empty board, and to a concrete winning move. -/
theorem c3_witness :
    (∃ (q : Player) (j : Fin 8),
      checkWinCondition c3Board = some (q, j) ∧ j ≤ (0 : Fin 8) ∧
      lineWinner c3Board (line j) = some q ∧
      ∀ k : Fin 8, k < j → lineWinner c3Board (line k) = none) ∧
    checkWinCondition createEmptyBoard = none ∧
    ((makeMove c3Game 0 2 "a").2.gameStatus = Status.finished ∧
     (makeMove c3Game 0 2 "a").2.winner = some Player.X ∧
     (makeMove c3Game 0 2 "a").1.winner = some (WinnerVal.player Player.X) ∧
     (makeMove c3Game 0 2 "a").1.winningLine = some (0 : Fin 8)) :=
  ⟨c3_win_detection.1 c3Board 0 Player.X (by decide),
   c3_win_detection.2.1 createEmptyBoard (by decide),
   c3_win_detection.2.2 c3Game 0 2 "a" Player.X 0 (by decide) (by decide)⟩

end TicTacToe

namespace TicTacToe

theorem countNonEmpty_update (b : Board) (p : Pos) (s : Player)
    (h : b p = Cell.empty) :
    countNonEmpty (Function.update b p (Cell.mark s)) = countNonEmpty b + 1 := by
  unfold countNonEmpty
  have hfun : (fun q => cellWeight (Function.update b p (Cell.mark s) q)) =
      Function.update (fun q => cellWeight (b q)) p 1 := by
    funext q
    by_cases hq : q = p
    · subst hq
      simp [Function.update, cellWeight]
    · simp [Function.update, hq]
  rw [hfun, Finset.sum_update_of_mem (Finset.mem_univ p),
    Finset.sum_eq_sum_diff_singleton_add (Finset.mem_univ p)
      (fun q => cellWeight (b q)), h]
  simp [cellWeight]
  omega

theorem gameInv_init : gameInv initialGame := by
  constructor
  · intro h
    simp [initialGame] at h
  · simp [initialGame, countNonEmpty, createEmptyBoard, cellWeight]

theorem gameInv_addPlayer {g : Game} (h : gameInv g) (pid : String) (n : Nat) :
    gameInv (addPlayer g pid n).2 := by
  obtain ⟨h1, h2⟩ := h
  by_cases hfull : 2 ≤ max g.players.length n
  · simp only [addPlayer, if_pos hfull]
    exact ⟨h1, h2⟩
  · by_cases hmem : pid ∈ g.players
    · simp only [addPlayer, if_neg hfull, if_pos hmem]
      exact ⟨h1, h2⟩
    · simp only [addPlayer, if_neg hfull, if_neg hmem]
      constructor
      · intro hp
        by_cases hlen : (g.players ++ [pid]).length = 2
        · exact hlen
        · rw [if_neg hlen] at hp
          have := h1 hp
          exact absurd this (by omega)
      · exact h2

theorem gameInv_removePlayer {g : Game} (h : gameInv g) (pid : String) :
    gameInv (removePlayer g pid) := by
  obtain ⟨h1, h2⟩ := h
  unfold removePlayer gameInv
  by_cases hc : (g.players.erase pid).length < 2 ∧ g.gameStatus = Status.playing
  · simp only [if_pos hc]
    exact ⟨fun hp => by simp at hp, h2⟩
  · simp only [if_neg hc]
    refine ⟨fun hp => ?_, h2⟩
    have hl2 := h1 hp
    have hA : ¬((g.players.erase pid).length < 2) := fun hA => hc ⟨hA, hp⟩
    have hle : (g.players.erase pid).length ≤ g.players.length :=
      (List.erase_sublist pid g.players).length_le
    omega

theorem gameInv_resetGame {g : Game} (_h : gameInv g) :
    gameInv (resetGame g) := by
  unfold resetGame gameInv
  refine ⟨fun hp => ?_, ?_⟩
  · by_cases hl : g.players.length = 2
    · exact hl
    · rw [if_neg hl] at hp
      simp at hp
  · simp [countNonEmpty, createEmptyBoard, cellWeight]

theorem gameInv_makeMove {g : Game} (h : gameInv g) (row col : Int)
    (pid : String) : gameInv (makeMove g row col pid).2 := by
  rcases hv : validateMove g row col pid with _ | r
  case some =>
    rw [makeMove_reject hv]
    exact h
  obtain ⟨hstatus, hsym, hbounds, hcell⟩ :=
    (validateMove_eq_none_iff g row col pid).1 hv
  obtain ⟨p, hp⟩ := toPos_eq_some_of_bounds hbounds
  have hbp : g.board p = Cell.empty := by
    simp only [cellAt, hp] at hcell
    exact hcell
  have hset : setCell g.board row col (Cell.mark (getPlayerSymbol g pid)) =
      Function.update g.board p (Cell.mark (getPlayerSymbol g pid)) := by
    simp [setCell, hp]
  have hcount := countNonEmpty_update g.board p (getPlayerSymbol g pid) hbp
  rcases hw : checkWinCondition
      (setCell g.board row col (Cell.mark (getPlayerSymbol g pid))) with _ | wl
  · by_cases h9 : g.moveCount + 1 = 9
    · rw [makeMove_draw hv hw h9]
      refine ⟨fun hc => ?_, ?_⟩
      · simp at hc
      · show g.moveCount + 1 =
          countNonEmpty (setCell g.board row col (Cell.mark (getPlayerSymbol g pid)))
        rw [hset, hcount]
        have := h.2
        omega
    · rw [makeMove_flip hv hw h9]
      refine ⟨fun hc => ?_, ?_⟩
      · exact h.1 hc
      · show g.moveCount + 1 =
          countNonEmpty (setCell g.board row col (Cell.mark (getPlayerSymbol g pid)))
        rw [hset, hcount]
        have := h.2
        omega
  · rcases wl with ⟨w, l⟩
    rw [makeMove_win hv hw]
    refine ⟨fun hc => ?_, ?_⟩
    · simp at hc
    · show g.moveCount + 1 =
        countNonEmpty (setCell g.board row col (Cell.mark (getPlayerSymbol g pid)))
      rw [hset, hcount]
      have := h.2
      omega

/-- C6 counterexample: after two joins and five accepted moves, X owns the
top row and the game is Finished with both participants still present, so
status Playing is not equivalent to having two participants; a leave
followed by a fresh join then yields a Playing state whose winner field is
still set, violating that a non-null winner implies Finished. -/
theorem c6_counterexample :
    (Reachable c6g7 ∧ c6g7.players.length = 2 ∧
     c6g7.gameStatus ≠ Status.playing) ∧
    (Reachable c6g9 ∧ c6g9.winner ≠ none ∧
     c6g9.gameStatus ≠ Status.finished) := by
  have h7 : Reachable c6g7 :=
    Reachable.moveStep _ _ _ _ (Reachable.moveStep _ _ _ _
      (Reachable.moveStep _ _ _ _ (Reachable.moveStep _ _ _ _
        (Reachable.moveStep _ _ _ _ (Reachable.joinStep _ _ _
          (Reachable.joinStep _ _ _ Reachable.init))))))
  have h9 : Reachable c6g9 :=
    Reachable.joinStep _ _ _ (Reachable.leaveStep _ _ h7)
  exact ⟨⟨h7, by decide, by decide⟩, ⟨h9, by decide, by decide⟩⟩

/-- C6 amended: every reachable state satisfies the surviving part of the
data-model invariant: status Playing implies exactly two participants, and
moveCount equals the number of non-empty cells.  The two dropped clauses
(participants.size 2 implies Playing, and winner non-null implies
Finished) fail on the counterexample trace. -/
theorem c6_invariant_amended :
    ∀ g : Game, Reachable g →
      (g.gameStatus = Status.playing → g.players.length = 2) ∧
      g.moveCount = countNonEmpty g.board := by
  intro g h
  induction h with
  | init => exact gameInv_init
  | joinStep g pid n _ ih => exact gameInv_addPlayer ih pid n
  | moveStep g row col pid _ ih => exact gameInv_makeMove ih row col pid
  | leaveStep g pid _ ih => exact gameInv_removePlayer ih pid
  | resetStep g _ ih => exact gameInv_resetGame ih

/-- C6 witness: the amended invariant at the constructor state. -/
theorem c6_witness :
    (initialGame.gameStatus = Status.playing →
      initialGame.players.length = 2) ∧
    initialGame.moveCount = countNonEmpty initialGame.board :=
  c6_invariant_amended initialGame Reachable.init

end TicTacToe

namespace TicTacToe

theorem isRateLimited_true_iff (st : ConnState) (ip : String) (now : Nat) :
    (isRateLimited st ip now).1 = true ↔
      ∃ e, st.rateLimiter ip = some e ∧ now - e.lastReset ≤ 60000 ∧
        30 ≤ e.count := by
  unfold isRateLimited
  rcases he : st.rateLimiter ip with _ | e <;> simp only [he]
  · simp
  · by_cases h1 : 60000 < now - e.lastReset
    · rw [if_pos h1]
      constructor
      · intro h
        exact absurd h (by simp)
      · rintro ⟨e2, he2, hw, -⟩
        simp only [Option.some.injEq] at he2
        subst he2
        exact absurd hw (by omega)
    · rw [if_neg h1]
      by_cases h2 : 30 ≤ e.count
      · rw [if_pos h2]
        exact ⟨fun _ => ⟨e, rfl, by omega, h2⟩, fun _ => rfl⟩
      · rw [if_neg h2]
        constructor
        · intro h
          exact absurd h (by simp)
        · rintro ⟨e2, he2, -, hc⟩
          simp only [Option.some.injEq] at he2
          subst he2
          exact absurd hc h2

theorem isRateLimited_clients (st : ConnState) (ip : String) (now : Nat) :
    (isRateLimited st ip now).2.clients = st.clients := by
  unfold isRateLimited
  rcases he : st.rateLimiter ip with _ | e
  · simp only [he]
  · simp only [he]
    split_ifs <;> rfl

theorem isRateLimited_other (st : ConnState) (ip : String) (now : Nat)
    (ip2 : String) (h : ip2 ≠ ip) :
    (isRateLimited st ip now).2.rateLimiter ip2 = st.rateLimiter ip2 := by
  unfold isRateLimited
  rcases he : st.rateLimiter ip with _ | e <;> simp only [he] <;>
    (try split_ifs) <;> simp_all

theorem isRateLimited_of_true (st : ConnState) (ip : String) (now : Nat)
    (h : (isRateLimited st ip now).1 = true) :
    (isRateLimited st ip now).2 = st := by
  revert h
  unfold isRateLimited
  rcases he : st.rateLimiter ip with _ | e <;> simp only [he] <;>
    (try split_ifs) <;> simp

end TicTacToe

namespace TicTacToe

theorem arrivalsRun_window (ip : String) (t0 : Nat) :
    ∀ (arrivals : List (String × Nat)) (st : ConnState) (c : Nat),
      st.rateLimiter ip = some ⟨c, t0⟩ → 1 ≤ c →
      (∀ a ∈ arrivals, a.2 - t0 ≤ 60000) →
      st.clients.length + 30 ≤ 100 + c →
      (arrivalsRun st ip arrivals).1 = min arrivals.length (30 - c) := by
  intro arrivals
  induction arrivals with
  | nil =>
    intro st c he hc hw hcap
    simp [arrivalsRun]
  | cons a rest ih =>
    intro st c he hc hw hcap
    have hwin : a.2 - t0 ≤ 60000 := hw a (List.mem_cons_self a rest)
    have hw2 : ∀ b ∈ rest, b.2 - t0 ≤ 60000 :=
      fun b hb => hw b (List.mem_cons_of_mem a hb)
    by_cases h30 : 30 ≤ c
    · have hlim : (isRateLimited st ip a.2).1 = true :=
        (isRateLimited_true_iff st ip a.2).2 ⟨⟨c, t0⟩, he, hwin, h30⟩
      have hst : (isRateLimited st ip a.2).2 = st :=
        isRateLimited_of_true st ip a.2 hlim
      have hh : handleNewConnection st ip a.1 a.2 =
          (AdmitResult.rateLimited, st) := by
        unfold handleNewConnection
        rw [if_pos hlim, hst]
      have hfst : (handleNewConnection st ip a.1 a.2).1 =
          AdmitResult.rateLimited := by rw [hh]
      have hsnd : (handleNewConnection st ip a.1 a.2).2 = st := by rw [hh]
      simp only [arrivalsRun, hfst, hsnd]
      rw [if_neg (by simp)]
      rw [ih st c he hc hw2 hcap]
      omega
    · push_neg at h30
      have hnl : (isRateLimited st ip a.2).1 = false := by
        by_contra hcon
        rw [Bool.not_eq_false] at hcon
        obtain ⟨e2, he2, -, hc2⟩ := (isRateLimited_true_iff st ip a.2).1 hcon
        rw [he] at he2
        simp only [Option.some.injEq] at he2
        subst he2
        change 30 ≤ c at hc2
        omega
      have hst1 : (isRateLimited st ip a.2).2.rateLimiter ip =
          some ⟨c + 1, t0⟩ := by
        unfold isRateLimited
        simp only [he]
        rw [if_neg (by change ¬(60000 < a.2 - t0); omega),
          if_neg (by change ¬(30 ≤ c); omega)]
        simp
      have hcl : (isRateLimited st ip a.2).2.clients = st.clients :=
        isRateLimited_clients st ip a.2
      have hcap1 : ¬(100 ≤ (isRateLimited st ip a.2).2.clients.length) := by
        rw [hcl]
        omega
      have hh : handleNewConnection st ip a.1 a.2 =
          (AdmitResult.accepted,
           { (isRateLimited st ip a.2).2 with
             clients := (isRateLimited st ip a.2).2.clients ++ [a.1] }) := by
        unfold handleNewConnection
        rw [if_neg (by simp [hnl]), if_neg hcap1]
      have hfst : (handleNewConnection st ip a.1 a.2).1 =
          AdmitResult.accepted := by rw [hh]
      have hnew : (handleNewConnection st ip a.1 a.2).2.rateLimiter ip =
          some ⟨c + 1, t0⟩ := by
        rw [hh]
        exact hst1
      have hlen : (handleNewConnection st ip a.1 a.2).2.clients.length + 30 ≤
          100 + (c + 1) := by
        rw [hh]
        simp only [List.length_append, hcl]
        simp
        omega
      simp only [arrivalsRun, hfst, if_true]
      rw [ih (handleNewConnection st ip a.1 a.2).2 (c + 1) hnew (by omega)
        hw2 hlen]
      simp only [List.length_cons]
      omega

end TicTacToe

namespace TicTacToe

/-- C8: admission rejects with a rate limit exactly when the address has an
unexpired 60-second window whose count has reached 30; it rejects for
capacity exactly when not rate limited and 100 connections are already
registered; a rejected connection changes neither the client list nor any
other address entry; an accepted connection appends exactly one client and
only happens below the cap; and from a fresh window a run of arrivals
inside one 60-second window accepts exactly min(n, 30) of them. -/
theorem c8_admission :
    (∀ (st : ConnState) (ip cid : String) (now : Nat),
      (handleNewConnection st ip cid now).1 = AdmitResult.rateLimited ↔
        ∃ e, st.rateLimiter ip = some e ∧ now - e.lastReset ≤ 60000 ∧
          30 ≤ e.count) ∧
    (∀ (st : ConnState) (ip cid : String) (now : Nat),
      (handleNewConnection st ip cid now).1 = AdmitResult.overloaded ↔
        (¬∃ e, st.rateLimiter ip = some e ∧ now - e.lastReset ≤ 60000 ∧
          30 ≤ e.count) ∧ 100 ≤ st.clients.length) ∧
    (∀ (st : ConnState) (ip cid : String) (now : Nat),
      (handleNewConnection st ip cid now).1 ≠ AdmitResult.accepted →
      (handleNewConnection st ip cid now).2.clients = st.clients ∧
      ∀ ip2, ip2 ≠ ip →
        (handleNewConnection st ip cid now).2.rateLimiter ip2 =
          st.rateLimiter ip2) ∧
    (∀ (st : ConnState) (ip cid : String) (now : Nat),
      (handleNewConnection st ip cid now).1 = AdmitResult.accepted →
      (handleNewConnection st ip cid now).2.clients = st.clients ++ [cid] ∧
      st.clients.length < 100) ∧
    (∀ (st : ConnState) (ip : String) (t0 : Nat) (cid0 : String)
        (arrivals : List (String × Nat)),
      st.rateLimiter ip = none →
      st.clients.length + 30 ≤ 100 →
      (∀ a ∈ arrivals, a.2 - t0 ≤ 60000) →
      (arrivalsRun st ip ((cid0, t0) :: arrivals)).1 =
        min (arrivals.length + 1) 30) := by
  refine ⟨?_, ?_, ?_, ?_, ?_⟩
  · intro st ip cid now
    rw [← isRateLimited_true_iff st ip now]
    unfold handleNewConnection
    by_cases hb : (isRateLimited st ip now).1 = true
    · rw [if_pos hb]
      simp [hb]
    · rw [if_neg hb]
      split_ifs <;> simp [hb]
  · intro st ip cid now
    rw [← isRateLimited_true_iff st ip now]
    unfold handleNewConnection
    by_cases hb : (isRateLimited st ip now).1 = true
    · rw [if_pos hb]
      simp [hb]
    · rw [if_neg hb]
      by_cases hcap : 100 ≤ (isRateLimited st ip now).2.clients.length
      · rw [if_pos hcap]
        have hcap2 : 100 ≤ st.clients.length := by
          rw [← isRateLimited_clients st ip now]
          exact hcap
        simp [hb, hcap2]
      · rw [if_neg hcap]
        have hcap2 : ¬(100 ≤ st.clients.length) := fun hle => by
          rw [← isRateLimited_clients st ip now] at hle
          exact hcap hle
        simp [hb, hcap2]
  · intro st ip cid now h
    unfold handleNewConnection at h ⊢
    by_cases hb : (isRateLimited st ip now).1 = true
    · rw [if_pos hb] at h ⊢
      rw [isRateLimited_of_true st ip now hb]
      exact ⟨rfl, fun ip2 _ => rfl⟩
    · rw [if_neg hb] at h ⊢
      by_cases hcap : 100 ≤ (isRateLimited st ip now).2.clients.length
      · rw [if_pos hcap] at h ⊢
        exact ⟨isRateLimited_clients st ip now,
          fun ip2 h2 => isRateLimited_other st ip now ip2 h2⟩
      · rw [if_neg hcap] at h
        simp at h
  · intro st ip cid now h
    unfold handleNewConnection at h ⊢
    by_cases hb : (isRateLimited st ip now).1 = true
    · rw [if_pos hb] at h
      simp at h
    · rw [if_neg hb] at h ⊢
      by_cases hcap : 100 ≤ (isRateLimited st ip now).2.clients.length
      · rw [if_pos hcap] at h
        simp at h
      · rw [if_neg hcap]
        have hcl := isRateLimited_clients st ip now
        constructor
        · simp [hcl]
        · rw [hcl] at hcap
          omega
  · intro st ip t0 cid0 arrivals hnone hcap hwin
    have hb : (isRateLimited st ip t0).1 = false := by
      unfold isRateLimited
      simp only [hnone]
    have hent : (isRateLimited st ip t0).2.rateLimiter ip = some ⟨1, t0⟩ := by
      unfold isRateLimited
      simp only [hnone]
      simp
    have hcl : (isRateLimited st ip t0).2.clients = st.clients := by
      unfold isRateLimited
      simp only [hnone]
    have hcap1 : ¬(100 ≤ (isRateLimited st ip t0).2.clients.length) := by
      rw [hcl]
      omega
    have hh : handleNewConnection st ip cid0 t0 =
        (AdmitResult.accepted,
         { (isRateLimited st ip t0).2 with
           clients := (isRateLimited st ip t0).2.clients ++ [cid0] }) := by
      unfold handleNewConnection
      rw [if_neg (by simp [hb]), if_neg hcap1]
    have hfst : (handleNewConnection st ip cid0 t0).1 =
        AdmitResult.accepted := by rw [hh]
    have hnew : (handleNewConnection st ip cid0 t0).2.rateLimiter ip =
        some ⟨1, t0⟩ := by
      rw [hh]
      exact hent
    have hlen : (handleNewConnection st ip cid0 t0).2.clients.length + 30 ≤
        100 + 1 := by
      rw [hh]
      simp only [List.length_append, hcl]
      simp
      omega
    simp only [arrivalsRun, hfst, if_true]
    rw [arrivalsRun_window ip t0 arrivals (handleNewConnection st ip cid0 t0).2 1
      hnew (by omega) hwin hlen]
    omega

/-- C8 witness: the statement applied to an exhausted window, a server at
the connection cap, a fresh state, and a three-arrival run in one window. -/
theorem c8_witness :
    ((handleNewConnection c8Limited "10.0.0.9" "c1" 200).1 =
        AdmitResult.rateLimited ↔
      ∃ e, c8Limited.rateLimiter "10.0.0.9" = some e ∧
        200 - e.lastReset ≤ 60000 ∧ 30 ≤ e.count) ∧
    ((handleNewConnection c8Full "7.7.7.7" "c2" 0).1 =
        AdmitResult.overloaded ↔
      (¬∃ e, c8Full.rateLimiter "7.7.7.7" = some e ∧ 0 - e.lastReset ≤ 60000 ∧
        30 ≤ e.count) ∧ 100 ≤ c8Full.clients.length) ∧
    ((handleNewConnection c8Limited "10.0.0.9" "c1" 200).2.clients =
        c8Limited.clients ∧
     ∀ ip2, ip2 ≠ "10.0.0.9" →
       (handleNewConnection c8Limited "10.0.0.9" "c1" 200).2.rateLimiter ip2 =
         c8Limited.rateLimiter ip2) ∧
    ((handleNewConnection c8Fresh "9.9.9.9" "c3" 5).2.clients =
        c8Fresh.clients ++ ["c3"] ∧ c8Fresh.clients.length < 100) ∧
    (arrivalsRun c8Fresh "9.9.9.9" (("a", 1000) :: [("b", 2000), ("c", 61000)])).1 =
      min (2 + 1) 30 :=
  ⟨c8_admission.1 c8Limited "10.0.0.9" "c1" 200,
   c8_admission.2.1 c8Full "7.7.7.7" "c2" 0,
   c8_admission.2.2.1 c8Limited "10.0.0.9" "c1" 200 (by decide),
   c8_admission.2.2.2.1 c8Fresh "9.9.9.9" "c3" 5 (by decide),
   c8_admission.2.2.2.2 c8Fresh "9.9.9.9" 1000 "a" [("b", 2000), ("c", 61000)]
     rfl (by decide) (by decide)⟩

end TicTacToe
